import Mathlib

/-! Fund transfer and transaction log of the banking server.

A shallow embedding of `src/src/transactions.c` (with the record types of
`src/includes/server.h`) and the properties of `log_transaction`,
`transfer_funds` and `view_transactions`.

Conventions of the embedding

* `float` balances and amounts are exact rationals (a finite `float` is one);
  `transfer_funds_fl` makes the rounding of the two `float` operations of
  `transfer_funds` explicit, and is `transfer_funds` when nothing is rounded.
* The account file is the list of its records; record `i` lives at byte offset
  `i * sizeof(Account)`.  The transaction file is the list of its records.
* The results of the system calls the code branches on (`open`, and `fcntl` in
  `transfer_funds`) are read from an environment record, so that every branch
  of the source is a branch of the model.
* Every function returns, next to its C result, the new file contents, the text
  handed to `write_to_client`, and the trace of file events it issued (the reads
  made inside `find_account_offset` and `get_next_transaction_id`, which are
  defined in another file, are not part of the trace).
* `sprintf("%.2f")` and `strftime`/`localtime` are parameters (`Fmt`); field
  widths, padding and the literal text are those of the source.
-/

namespace Bank

/-! ## Records of `server.h` -/

/-- The enum `TransactionType`. -/
inductive TransactionType where
  | DEPOSIT
  | WITHDRAWAL
  | LOAN_DEPOSIT
  | TRANSFER_SENT
  | TRANSFER_RECEIVED
  deriving DecidableEq, Repr

/-- The integer value of each enumerator. -/
def TransactionType.toInt : TransactionType → Int
  | .DEPOSIT => 1
  | .WITHDRAWAL => 2
  | .LOAN_DEPOSIT => 3
  | .TRANSFER_SENT => 4
  | .TRANSFER_RECEIVED => 5

/-- The struct `Account`. -/
structure Account where
  account_no : Int
  balance : ℚ
  is_active : Int
  deriving DecidableEq, Repr

/-- The struct `Transaction`. -/
structure Transaction where
  transactionID : Int
  accountID : Int
  type : TransactionType
  amount : ℚ
  oldBalance : ℚ
  newBalance : ℚ
  timestamp : Int
  deriving DecidableEq, Repr

/-- The value of `sizeof(Account)`: an `int`, a `float` and an `int`. -/
def sizeof_Account : Nat := 12

/-- The value of `sizeof(Transaction)`: a `long`, two `int`, three `float`, four
bytes of padding and a `time_t`. -/
def sizeof_Transaction : Nat := 40

/-! ## Environment and traces -/

/-- The two record files. -/
inductive FileId where
  | accounts
  | transactions
  deriving DecidableEq, Repr

/-- File events issued by the code.  A lock request carries its start, its
length (`0` is "to the end of the file"), whether it is exclusive, and whether
`fcntl` granted it. -/
inductive Event where
  | opened (f : FileId) (ok : Bool)
  | lock (f : FileId) (start len : Nat) (exclusive granted : Bool)
  | unlock (f : FileId) (start len : Nat)
  | read (f : FileId) (offset : Nat)
  | write (f : FileId) (offset : Nat)
  | close (f : FileId)
  deriving DecidableEq, Repr

/-- What one call of `log_transaction` gets from the system: whether `open`
succeeds, whether `fcntl(F_SETLKW)` succeeds, and the value of `time(NULL)`. -/
structure LogEnv where
  log_open : Bool
  lock_ok : Bool
  now : Int
  deriving DecidableEq, Repr

/-- What one call of `transfer_funds` gets from the system: whether the account
file opens, whether each of the two `fcntl(F_SETLKW)` calls succeeds, and the
environments of the two `log_transaction` calls. -/
structure Env where
  acct_open : Bool
  lock1_ok : Bool
  lock2_ok : Bool
  sent : LogEnv
  recv : LogEnv
  deriving DecidableEq, Repr

/-- The library formatters used by the code: `float2` renders a `float` under
`%.2f`, `time` renders a timestamp under `strftime "%Y-%m-%d %H:%M:%S"` after
`localtime`. -/
structure Fmt where
  float2 : ℚ → String
  time : Int → String

/-! ## Helpers that are declared in `server.h` -/

/-- Modelled from the spec: `find_account_offset` is declared in `server.h` and
its body is outside `transactions.c`.  The spec's `locate(key)` "scans from the
start of the file comparing the key field; returns the first match's offset".
The result is the position of the record; its byte offset is
`i * sizeof_Account`, and `none` stands for the C result `-1`. -/
def find_account_offset : (accounts : List Account) → Int → Option (Fin accounts.length)
  | [], _ => none
  | a :: rest, key =>
    if a.account_no = key then some ⟨0, Nat.succ_pos _⟩
    else (find_account_offset rest key).map Fin.succ

/-- Modelled from the spec: `get_next_transaction_id` is declared in `server.h`
and its body is outside `transactions.c`.  The spec's `allocate_next_id` "scans all
existing records, returns `max(existing_ids) + 1`, or `1` if the file is
empty". -/
def get_next_transaction_id : List Transaction → Int
  | [] => 1
  | t :: rest => rest.foldl (fun m x => max m x.transactionID) t.transactionID + 1

/-! ## `log_transaction` -/

/-- Result of `log_transaction`: the transaction file and the events issued. -/
structure LogResult where
  log : List Transaction
  trace : List Event
  deriving DecidableEq, Repr

/-- The function `log_transaction`.  When `open` fails nothing is written.
Otherwise the whole file is locked (the result of that `fcntl` is not tested),
one record with the next id and the current time is written at the end, the
lock is released and the file is closed. -/
def log_transaction (e : LogEnv) (log : List Transaction) (accountID : Int)
    (type : TransactionType) (amount oldBalance newBalance : ℚ) : LogResult :=
  if e.log_open = false then
    { log := log, trace := [Event.opened FileId.transactions false] }
  else
    let next_trans_id := get_next_transaction_id log
    let trans : Transaction :=
      { transactionID := next_trans_id
        accountID := accountID
        type := type
        amount := amount
        oldBalance := oldBalance
        newBalance := newBalance
        timestamp := e.now }
    { log := log ++ [trans]
      trace := [Event.opened FileId.transactions true,
                Event.lock FileId.transactions 0 0 true e.lock_ok,
                Event.write FileId.transactions (log.length * sizeof_Transaction),
                Event.unlock FileId.transactions 0 0,
                Event.close FileId.transactions] }

/-! ## `transfer_funds` -/

/-- Result of `transfer_funds`: the C return value, the text sent to the client,
both files, and the events issued. -/
structure TransferResult where
  ret : Int
  reply : String
  accounts : List Account
  log : List Transaction
  trace : List Event
  deriving DecidableEq, Repr

/-- The function `transfer_funds`, statement by statement.  The two records are
read after both locks are granted and written back before the two
`log_transaction` calls; `buffer[1024]` of the success message holds the
rendering of any `float` and two `int`, so it has no capacity check here. -/
def transfer_funds (fmt : Fmt) (env : Env) (accounts : List Account) (log : List Transaction)
    (from_account to_account : Int) (amount : ℚ) : TransferResult :=
  if amount ≤ 0 then
    { ret := -1, reply := "Invalid transfer amount.\n"
      accounts := accounts, log := log, trace := [] }
  else if env.acct_open = false then
    { ret := -1, reply := "Error: Cannot access account data.\n"
      accounts := accounts, log := log
      trace := [Event.opened FileId.accounts false] }
  else
    match find_account_offset accounts from_account, find_account_offset accounts to_account with
    | some i, some j =>
      let from_offset := i.val * sizeof_Account
      let to_offset := j.val * sizeof_Account
      let lock1_start := if from_offset < to_offset then from_offset else to_offset
      let lock2_start := if from_offset < to_offset then to_offset else from_offset
      if env.lock1_ok = false then
        { ret := -1, reply := "Error: Cannot lock accounts for transfer.\n"
          accounts := accounts, log := log
          trace := [Event.opened FileId.accounts true,
                    Event.lock FileId.accounts lock1_start sizeof_Account true false,
                    Event.close FileId.accounts] }
      else if env.lock2_ok = false then
        { ret := -1, reply := "Error: Cannot lock accounts for transfer.\n"
          accounts := accounts, log := log
          trace := [Event.opened FileId.accounts true,
                    Event.lock FileId.accounts lock1_start sizeof_Account true true,
                    Event.lock FileId.accounts lock2_start sizeof_Account true false,
                    Event.close FileId.accounts] }
      else
        let from_acc := accounts.get i
        let to_acc := accounts.get j
        let locked : List Event :=
          [Event.opened FileId.accounts true,
           Event.lock FileId.accounts lock1_start sizeof_Account true true,
           Event.lock FileId.accounts lock2_start sizeof_Account true true,
           Event.read FileId.accounts from_offset,
           Event.read FileId.accounts to_offset]
        let release : List Event :=
          [Event.unlock FileId.accounts lock1_start sizeof_Account,
           Event.unlock FileId.accounts lock2_start sizeof_Account,
           Event.close FileId.accounts]
        if from_acc.is_active = 0 ∨ to_acc.is_active = 0 then
          { ret := -1, reply := "Error: One or both accounts are deactivated.\n"
            accounts := accounts, log := log, trace := locked ++ release }
        else if from_acc.balance < amount then
          { ret := -1, reply := "Error: Insufficient balance for transfer.\n"
            accounts := accounts, log := log, trace := locked ++ release }
        else
          let from_old_bal := from_acc.balance
          let to_old_bal := to_acc.balance
          let from_new : Account := { from_acc with balance := from_acc.balance - amount }
          let to_new : Account := { to_acc with balance := to_acc.balance + amount }
          let accounts1 := accounts.set i.val from_new
          let accounts2 := accounts1.set j.val to_new
          let r1 := log_transaction env.sent log from_new.account_no
            TransactionType.TRANSFER_SENT amount from_old_bal from_new.balance
          let r2 := log_transaction env.recv r1.log to_new.account_no
            TransactionType.TRANSFER_RECEIVED amount to_old_bal to_new.balance
          { ret := 0
            reply := "Successfully transferred " ++ fmt.float2 amount ++ " from account "
              ++ toString from_account ++ " to account " ++ toString to_account ++ ".\n"
            accounts := accounts2
            log := r2.log
            trace := locked
              ++ [Event.write FileId.accounts from_offset, Event.write FileId.accounts to_offset]
              ++ r1.trace ++ r2.trace ++ release }
    | _, _ =>
      { ret := -1, reply := "Error: One or both accounts not found.\n"
        accounts := accounts, log := log
        trace := [Event.opened FileId.accounts true, Event.close FileId.accounts] }

/-- The function `transfer_funds` with the rounding of `float` arithmetic
explicit: `fl x` is the `float` that `from_acc.balance -= amount` and
`to_acc.balance += amount` store when the exact result is `x` (the nearest
`float`; `fl` is the identity when balances are taken as exact numbers).  The
comparisons `amount <= 0` and `from_acc.balance < amount` are exact on finite
`float` values, and every other statement is that of `transfer_funds`. -/
def transfer_funds_fl (fl : ℚ → ℚ) (fmt : Fmt) (env : Env) (accounts : List Account) (log : List Transaction)
    (from_account to_account : Int) (amount : ℚ) : TransferResult :=
  if amount ≤ 0 then
    { ret := -1, reply := "Invalid transfer amount.\n"
      accounts := accounts, log := log, trace := [] }
  else if env.acct_open = false then
    { ret := -1, reply := "Error: Cannot access account data.\n"
      accounts := accounts, log := log
      trace := [Event.opened FileId.accounts false] }
  else
    match find_account_offset accounts from_account, find_account_offset accounts to_account with
    | some i, some j =>
      let from_offset := i.val * sizeof_Account
      let to_offset := j.val * sizeof_Account
      let lock1_start := if from_offset < to_offset then from_offset else to_offset
      let lock2_start := if from_offset < to_offset then to_offset else from_offset
      if env.lock1_ok = false then
        { ret := -1, reply := "Error: Cannot lock accounts for transfer.\n"
          accounts := accounts, log := log
          trace := [Event.opened FileId.accounts true,
                    Event.lock FileId.accounts lock1_start sizeof_Account true false,
                    Event.close FileId.accounts] }
      else if env.lock2_ok = false then
        { ret := -1, reply := "Error: Cannot lock accounts for transfer.\n"
          accounts := accounts, log := log
          trace := [Event.opened FileId.accounts true,
                    Event.lock FileId.accounts lock1_start sizeof_Account true true,
                    Event.lock FileId.accounts lock2_start sizeof_Account true false,
                    Event.close FileId.accounts] }
      else
        let from_acc := accounts.get i
        let to_acc := accounts.get j
        let locked : List Event :=
          [Event.opened FileId.accounts true,
           Event.lock FileId.accounts lock1_start sizeof_Account true true,
           Event.lock FileId.accounts lock2_start sizeof_Account true true,
           Event.read FileId.accounts from_offset,
           Event.read FileId.accounts to_offset]
        let release : List Event :=
          [Event.unlock FileId.accounts lock1_start sizeof_Account,
           Event.unlock FileId.accounts lock2_start sizeof_Account,
           Event.close FileId.accounts]
        if from_acc.is_active = 0 ∨ to_acc.is_active = 0 then
          { ret := -1, reply := "Error: One or both accounts are deactivated.\n"
            accounts := accounts, log := log, trace := locked ++ release }
        else if from_acc.balance < amount then
          { ret := -1, reply := "Error: Insufficient balance for transfer.\n"
            accounts := accounts, log := log, trace := locked ++ release }
        else
          let from_old_bal := from_acc.balance
          let to_old_bal := to_acc.balance
          let from_new : Account := { from_acc with balance := fl (from_acc.balance - amount) }
          let to_new : Account := { to_acc with balance := fl (to_acc.balance + amount) }
          let accounts1 := accounts.set i.val from_new
          let accounts2 := accounts1.set j.val to_new
          let r1 := log_transaction env.sent log from_new.account_no
            TransactionType.TRANSFER_SENT amount from_old_bal from_new.balance
          let r2 := log_transaction env.recv r1.log to_new.account_no
            TransactionType.TRANSFER_RECEIVED amount to_old_bal to_new.balance
          { ret := 0
            reply := "Successfully transferred " ++ fmt.float2 amount ++ " from account "
              ++ toString from_account ++ " to account " ++ toString to_account ++ ".\n"
            accounts := accounts2
            log := r2.log
            trace := locked
              ++ [Event.write FileId.accounts from_offset, Event.write FileId.accounts to_offset]
              ++ r1.trace ++ r2.trace ++ release }
    | _, _ =>
      { ret := -1, reply := "Error: One or both accounts not found.\n"
        accounts := accounts, log := log
        trace := [Event.opened FileId.accounts true, Event.close FileId.accounts] }

/-- The record that an account number resolves to: the one read at the offset
returned by `find_account_offset`. -/
def lookup (accounts : List Account) (account_no : Int) : Option Account :=
  (find_account_offset accounts account_no).map (fun i => accounts.get i)

/-- The balance of the record that an account number resolves to. -/
def balance_of (accounts : List Account) (account_no : Int) : Option ℚ :=
  (lookup accounts account_no).map (fun a => a.balance)

/-! ## `view_transactions` -/

/-- The conversions `%-5ld`, `%-12s` and `%-9.2f` pad on the right with blanks up
to the field width and never truncate. -/
def left_justify (width : Nat) (s : String) : String :=
  s ++ String.mk (List.replicate (width - s.length) ' ')

/-- The `if` chain that fills `type_str` in `view_transactions`. -/
def type_str (t : TransactionType) : String :=
  if t = TransactionType.DEPOSIT then "DEPOSIT"
  else if t = TransactionType.WITHDRAWAL then "WITHDRAWAL"
  else if t = TransactionType.LOAN_DEPOSIT then "LOAN_DEPOSIT"
  else "UNKNOWN"

/-- The row built by
`sprintf(line, "%-5ld | %-12s | %-9.2f | %-9.2f | %-9.2f | %s\n", ...)`.  The
array `line[512]` holds the row of any `long`, `float` and timestamp, so it has
no capacity check here. -/
def format_row (fmt : Fmt) (trans : Transaction) : String :=
  left_justify 5 (toString trans.transactionID) ++ " | "
    ++ left_justify 12 (type_str trans.type) ++ " | "
    ++ left_justify 9 (fmt.float2 trans.amount) ++ " | "
    ++ left_justify 9 (fmt.float2 trans.oldBalance) ++ " | "
    ++ left_justify 9 (fmt.float2 trans.newBalance) ++ " | "
    ++ fmt.time trans.timestamp ++ "\n"

/-- The size of `char buffer[8192]` in `view_transactions`. -/
def buffer_size : Nat := 8192

/-- The call `strcat(dest, src)` on a destination array of `cap` bytes.  The
result with its terminating zero must fit in the array; when it does not the
call writes past the end of the array and the behaviour of the program is
undefined, which is `none` here and stays `none`. -/
def strcat (cap : Nat) (dest : Option String) (src : String) : Option String :=
  match dest with
  | none => none
  | some d => if d.length + src.length + 1 ≤ cap then some (d ++ src) else none

/-- The three lines placed in `buffer` before the loop. -/
def view_header (account_no : Int) : Option String :=
  strcat buffer_size
    (strcat buffer_size
      (strcat buffer_size (some "")
        ("\n--- Transaction History for Account " ++ toString account_no ++ " ---\n"))
      "ID    | Type         | Amount   | Old Bal  | New Bal  | Date & Time\n")
    "----------------------------------------------------------------------------------\n"

/-- The `while (read(...) == sizeof(Transaction))` loop over the records of the
file, on the state `(buffer, found)`. -/
def view_loop (fmt : Fmt) (account_no : Int) :
    List Transaction → Option String × Bool → Option String × Bool
  | [], st => st
  | t :: rest, st =>
    if t.accountID = account_no then
      view_loop fmt account_no rest (strcat buffer_size st.1 (format_row fmt t), true)
    else
      view_loop fmt account_no rest st

/-- What one call of `view_transactions` gets from the system. -/
structure ViewEnv where
  log_open : Bool
  lock_ok : Bool
  deriving DecidableEq, Repr

/-- Result of `view_transactions`: the text handed to `write_to_client` (`none`
when `buffer` was overrun) and the events issued. -/
structure ViewResult where
  reply : Option String
  trace : List Event

/-- The function `view_transactions`. -/
def view_transactions (fmt : Fmt) (e : ViewEnv) (log : List Transaction) (account_no : Int) :
    ViewResult :=
  if e.log_open = false then
    { reply := some "Error: Cannot open transaction history.\n"
      trace := [Event.opened FileId.transactions false] }
  else
    let st := view_loop fmt account_no log (view_header account_no, false)
    let buffer :=
      if st.2 = false then strcat buffer_size st.1 "No transactions found for this account.\n"
      else st.1
    { reply := buffer
      trace := [Event.opened FileId.transactions true,
                Event.lock FileId.transactions 0 0 false e.lock_ok]
        ++ (List.range (log.length + 1)).map
            (fun k => Event.read FileId.transactions (k * sizeof_Transaction))
        ++ [Event.unlock FileId.transactions 0 0, Event.close FileId.transactions] }

/-- The rows that the specification asks for: one row for each entry of the log
whose `accountID` is the account number, in the order of the log. -/
def matching_rows (fmt : Fmt) (account_no : Int) (log : List Transaction) : List String :=
  (log.filter (fun t => t.accountID = account_no)).map (format_row fmt)

/-- The three header lines of the table. -/
def header_text (account_no : Int) : String :=
  "\n--- Transaction History for Account " ++ toString account_no ++ " ---\n"
    ++ "ID    | Type         | Amount   | Old Bal  | New Bal  | Date & Time\n"
    ++ "----------------------------------------------------------------------------------\n"

/-- The concatenation of a list of lines. -/
def concat_lines : List String → String
  | [] => ""
  | s :: rest => s ++ concat_lines rest

/-- The text that the specification asks of `view_transactions`: the header,
then the matching rows, or the no-transactions line when no entry matches. -/
def expected_view (fmt : Fmt) (log : List Transaction) (account_no : Int) : String :=
  header_text account_no ++
    (if (matching_rows fmt account_no log).isEmpty then "No transactions found for this account.\n"
     else concat_lines (matching_rows fmt account_no log))

/-! ## Properties of traces -/

/-- The lock requests made on the account file, in order. -/
def account_lock_requests (trace : List Event) : List Event :=
  trace.filter (fun ev =>
    match ev with
    | Event.lock FileId.accounts _ _ _ _ => true
    | _ => false)

/-- Scan of a trace with the list of locks currently held (file, start, length):
a granted lock request adds its range, an unlock request removes it, and a
close is accepted only when no range of that file is held. -/
def released_before_close : List Event → List (FileId × Nat × Nat) → Bool
  | [], _ => true
  | Event.lock f start len _ true :: rest, held =>
    released_before_close rest ((f, start, len) :: held)
  | Event.unlock f start len :: rest, held =>
    released_before_close rest (held.filter (fun h => h ≠ (f, start, len)))
  | Event.close f :: rest, held =>
    !(held.any (fun h => h.1 = f)) && released_before_close rest held
  | _ :: rest, held => released_before_close rest held

/-! ## Sequences of calls -/

/-- One call of `log_transaction`: its arguments and what the system answers. -/
structure LogCall where
  env : LogEnv
  accountID : Int
  type : TransactionType
  amount : ℚ
  oldBalance : ℚ
  newBalance : ℚ

/-- The transaction file after a sequence of `log_transaction` calls. -/
def run_log_calls (log : List Transaction) (calls : List LogCall) : List Transaction :=
  calls.foldl (fun l c =>
    (log_transaction c.env l c.accountID c.type c.amount c.oldBalance c.newBalance).log) log

/-- One call of `transfer_funds`: its arguments and what the system answers. -/
structure TransferCall where
  fmt : Fmt
  env : Env
  from_account : Int
  to_account : Int
  amount : ℚ

/-- The two files after a sequence of `transfer_funds` calls. -/
def run_transfers (st : List Account × List Transaction) (calls : List TransferCall) :
    List Account × List Transaction :=
  calls.foldl (fun s c =>
    let r := transfer_funds c.fmt c.env s.1 s.2 c.from_account c.to_account c.amount
    (r.accounts, r.log)) st

/-! ## The validation order of the specification -/

/-- The outcomes that `transfer_funds` reports to the client. -/
inductive Outcome where
  | invalid_amount
  | data_access
  | not_found
  | lock_failure
  | deactivated
  | insufficient
  | success
  deriving DecidableEq, Repr

/-- The text reported for each outcome. -/
def Outcome.message (fmt : Fmt) (from_account to_account : Int) (amount : ℚ) : Outcome → String
  | Outcome.invalid_amount => "Invalid transfer amount.\n"
  | Outcome.data_access => "Error: Cannot access account data.\n"
  | Outcome.not_found => "Error: One or both accounts not found.\n"
  | Outcome.lock_failure => "Error: Cannot lock accounts for transfer.\n"
  | Outcome.deactivated => "Error: One or both accounts are deactivated.\n"
  | Outcome.insufficient => "Error: Insufficient balance for transfer.\n"
  | Outcome.success => "Successfully transferred " ++ fmt.float2 amount ++ " from account "
      ++ toString from_account ++ " to account " ++ toString to_account ++ ".\n"

/-- The five checks in the order of section 4.3 of the specification, without
the locking step: the outcome is that of the first check that fails, and
success when none fails. -/
def claimed_check_order (env : Env) (accounts : List Account) (from_account to_account : Int)
    (amount : ℚ) : Outcome :=
  if amount ≤ 0 then Outcome.invalid_amount
  else if env.acct_open = false then Outcome.data_access
  else
    match lookup accounts from_account, lookup accounts to_account with
    | some fa, some ta =>
      if fa.is_active = 0 ∨ ta.is_active = 0 then Outcome.deactivated
      else if fa.balance < amount then Outcome.insufficient
      else Outcome.success
    | _, _ => Outcome.not_found

/-- The validation order of section 4.3 of the specification with the locking
step between checks 3 and 4 as a check of its own: the first check that fails
decides the outcome. -/
def first_failing_check (env : Env) (accounts : List Account) (from_account to_account : Int)
    (amount : ℚ) : Outcome :=
  if amount ≤ 0 then Outcome.invalid_amount
  else if env.acct_open = false then Outcome.data_access
  else
    match lookup accounts from_account, lookup accounts to_account with
    | some fa, some ta =>
      if env.lock1_ok = false ∨ env.lock2_ok = false then Outcome.lock_failure
      else if fa.is_active = 0 ∨ ta.is_active = 0 then Outcome.deactivated
      else if fa.balance < amount then Outcome.insufficient
      else Outcome.success
    | _, _ => Outcome.not_found

/-! ## Sample data -/

/-- A formatter for the examples: `float2` prints a non-negative amount with
its first two decimals, `time` prints the number of seconds. -/
def demoFmt : Fmt where
  float2 := fun q => toString ((q.num * 100 / q.den).toNat / 100) ++ "." ++
    toString ((q.num * 100 / q.den).toNat / 10 % 10) ++ toString ((q.num * 100 / q.den).toNat % 10)
  time := fun t => toString t

/-- A system in which the log file opens and its lock is granted. -/
def demoLogEnv : LogEnv := { log_open := true, lock_ok := true, now := 1700000000 }

/-- A system in which every call succeeds. -/
def demoEnv : Env :=
  { acct_open := true, lock1_ok := true, lock2_ok := true, sent := demoLogEnv, recv := demoLogEnv }

/-- A system in which the first range lock is granted and the second fails. -/
def secondLockFails : Env := { demoEnv with lock2_ok := false }

/-- A system in which the log file does not open. -/
def logUnreachable : LogEnv := { log_open := false, lock_ok := true, now := 1700000000 }

/-- A system in which the account file opens and both range locks are granted,
and the log file does not open. -/
def logFileUnreachable : Env :=
  { acct_open := true, lock1_ok := true, lock2_ok := true
    sent := logUnreachable, recv := logUnreachable }

/-- A system in which the first range lock fails. -/
def firstLockFails : Env := { demoEnv with lock1_ok := false }

/-- Scenario 1 of the specification: accounts 100 and 200. -/
def demoAccounts : List Account := [⟨100, 500, 1⟩, ⟨200, 50, 1⟩]

/-- The two entries that scenario 1 of the specification appends to an empty
log. -/
def demoTransferLog : List Transaction :=
  [{ transactionID := 1, accountID := 100, type := TransactionType.TRANSFER_SENT
     amount := 150, oldBalance := 500, newBalance := 350, timestamp := 1700000000 },
   { transactionID := 2, accountID := 200, type := TransactionType.TRANSFER_RECEIVED
     amount := 150, oldBalance := 50, newBalance := 200, timestamp := 1700000000 }]

/-- The log after 140 deposits of 10 into account 1, starting from balance 0. -/
def longLog : List Transaction :=
  (List.range 140).map (fun (k : Nat) =>
    { transactionID := (k : Int) + 1, accountID := 1, type := TransactionType.DEPOSIT
      amount := 10, oldBalance := 10 * (k : ℚ), newBalance := 10 * (k : ℚ) + 10
      timestamp := 1700000000 + (k : Int) })

/-! ## Locating records -/

theorem find_account_offset_key : ∀ (accounts : List Account) (key : Int)
    (i : Fin accounts.length), find_account_offset accounts key = some i →
    (accounts.get i).account_no = key
  | [], _, i, _ => i.elim0
  | a :: rest, key, i, h => by
    unfold find_account_offset at h
    split_ifs at h with hk
    · cases h
      simpa using hk
    · obtain ⟨i', hi', rfl⟩ := Option.map_eq_some'.mp h
      simpa using find_account_offset_key rest key i' hi'

theorem find_account_offset_congr (key : Int) : ∀ (l l' : List Account),
    l.map (fun a => a.account_no) = l'.map (fun a => a.account_no) →
    (find_account_offset l key).map Fin.val = (find_account_offset l' key).map Fin.val
  | [], [], _ => rfl
  | [], _ :: _, h => by simp at h
  | _ :: _, [], h => by simp at h
  | a :: rest, b :: rest', h => by
    simp only [List.map_cons, List.cons.injEq] at h
    have ih := find_account_offset_congr key rest rest' h.2
    unfold find_account_offset
    rw [← h.1]
    split_ifs with hk
    · rfl
    · cases h1 : find_account_offset rest key <;> cases h2 : find_account_offset rest' key <;>
        simp_all

/-- The record an account number resolves to is the first record of the file
with that number. -/
theorem lookup_eq_find (key : Int) : ∀ accounts : List Account,
    lookup accounts key = accounts.find? (fun a => a.account_no = key)
  | [] => rfl
  | a :: rest => by
    have ih := lookup_eq_find key rest
    unfold lookup at ih ⊢
    unfold find_account_offset
    by_cases hk : a.account_no = key
    · simp [hk]
    · simp only [hk, if_false, Option.map_map, List.find?_cons, decide_False]
      rw [← ih]
      cases find_account_offset rest key <;> simp

theorem lookup_eq_some {accounts : List Account} {key : Int} {a : Account} :
    lookup accounts key = some a ↔
      ∃ i, find_account_offset accounts key = some i ∧ accounts.get i = a := by
  simp [lookup, Option.map_eq_some']

/-- A store with the same account numbers at the same positions resolves an
account number to the same position. -/
theorem lookup_of_same_keys {l l' : List Account} {key : Int} {i : Fin l.length}
    (hkeys : l'.map (fun a => a.account_no) = l.map (fun a => a.account_no))
    (hi : find_account_offset l key = some i) :
    lookup l' key = l'[i.val]? := by
  have h := find_account_offset_congr key l' l hkeys
  rw [hi] at h
  cases h' : find_account_offset l' key with
  | none => simp [h'] at h
  | some i' =>
    simp only [h', Option.map_some', Option.some.injEq] at h
    simp [lookup, h', ← h]

/-! ## The success path of `transfer_funds` -/

theorem transfer_funds_commit (fmt : Fmt) (env : Env) (accounts : List Account)
    (log : List Transaction) (from_account to_account : Int) (amount : ℚ)
    (i j : Fin accounts.length)
    (hi : find_account_offset accounts from_account = some i)
    (hj : find_account_offset accounts to_account = some j)
    (hpos : 0 < amount) (hopen : env.acct_open = true)
    (hl1 : env.lock1_ok = true) (hl2 : env.lock2_ok = true)
    (hfa : (accounts.get i).is_active ≠ 0) (hta : (accounts.get j).is_active ≠ 0)
    (hbal : amount ≤ (accounts.get i).balance) :
    let r := transfer_funds fmt env accounts log from_account to_account amount
    r.ret = 0 ∧
    r.accounts = (accounts.set i.val { accounts.get i with balance := (accounts.get i).balance - amount }).set
      j.val { accounts.get j with balance := (accounts.get j).balance + amount } ∧
    r.log = (log_transaction env.recv
      (log_transaction env.sent log from_account TransactionType.TRANSFER_SENT amount
        (accounts.get i).balance ((accounts.get i).balance - amount)).log
      to_account TransactionType.TRANSFER_RECEIVED amount
        (accounts.get j).balance ((accounts.get j).balance + amount)).log := by
  have hk1 := find_account_offset_key accounts from_account i hi
  have hk2 := find_account_offset_key accounts to_account j hj
  simp only [transfer_funds, hi, hj, hopen, hl1, hl2, not_le.mpr hpos, not_lt.mpr hbal, hfa, hta,
    if_false, or_self, hk1, hk2]
  simp

theorem map_account_no_set (l : List Account) (i : Fin l.length) (q : ℚ) :
    (l.set i.val { l.get i with balance := q }).map (fun a => a.account_no)
      = l.map (fun a => a.account_no) := by
  apply List.ext_getElem?
  intro n
  simp only [List.map_set, List.getElem?_set, List.length_map, List.getElem?_map]
  split_ifs with h1 h2
  · subst h1
    simp [List.getElem?_eq_getElem i.isLt]
  · exact absurd i.isLt h2
  · rfl

/-- The account numbers of the store written by a successful transfer. -/
theorem map_account_no_commit (l : List Account) (i j : Fin l.length) (p q : ℚ) :
    ((l.set i.val { l.get i with balance := p }).set j.val { l.get j with balance := q }).map
      (fun a => a.account_no) = l.map (fun a => a.account_no) := by
  rw [List.map_set, map_account_no_set]
  apply List.ext_getElem?
  intro n
  simp only [List.getElem?_set, List.length_map, List.getElem?_map]
  split_ifs with h1 h2
  · subst h1
    simp [List.getElem?_eq_getElem j.isLt]
  · exact absurd j.isLt h2
  · rfl

/-- The account file after a successful transfer between two different account
numbers. -/
theorem transfer_funds_commit_accounts (fmt : Fmt) (env : Env) (accounts : List Account)
    (log : List Transaction) (from_account to_account : Int) (amount : ℚ) (fa ta : Account)
    (hne : from_account ≠ to_account)
    (hfrom : lookup accounts from_account = some fa)
    (hto : lookup accounts to_account = some ta)
    (hfa : fa.is_active ≠ 0) (hta : ta.is_active ≠ 0)
    (hpos : 0 < amount) (hbal : amount ≤ fa.balance)
    (hopen : env.acct_open = true) (hl1 : env.lock1_ok = true) (hl2 : env.lock2_ok = true) :
    let r := transfer_funds fmt env accounts log from_account to_account amount
    r.ret = 0 ∧
    lookup r.accounts from_account = some { fa with balance := fa.balance - amount } ∧
    lookup r.accounts to_account = some { ta with balance := ta.balance + amount } ∧
    r.accounts.length = accounts.length ∧
    (∃ i j, find_account_offset accounts from_account = some i ∧
      find_account_offset accounts to_account = some j ∧
      ∀ n, n ≠ i.val → n ≠ j.val → r.accounts[n]? = accounts[n]?) ∧
    r.log = (log_transaction env.recv
      (log_transaction env.sent log from_account TransactionType.TRANSFER_SENT amount
        fa.balance (fa.balance - amount)).log
      to_account TransactionType.TRANSFER_RECEIVED amount ta.balance (ta.balance + amount)).log := by
  obtain ⟨i, hi, rfl⟩ := lookup_eq_some.mp hfrom
  obtain ⟨j, hj, rfl⟩ := lookup_eq_some.mp hto
  have hk1 := find_account_offset_key accounts from_account i hi
  have hk2 := find_account_offset_key accounts to_account j hj
  have hij : i.val ≠ j.val := by
    intro h
    have : i = j := Fin.ext h
    subst this
    exact hne (hk1.symm.trans hk2)
  obtain ⟨h0, hacc, hlog⟩ := transfer_funds_commit fmt env accounts log from_account to_account
    amount i j hi hj hpos hopen hl1 hl2 hfa hta hbal
  have hkeys := map_account_no_commit accounts i j ((accounts.get i).balance - amount)
    ((accounts.get j).balance + amount)
  refine ⟨h0, ?_, ?_, ?_, ⟨i, j, hi, hj, ?_⟩, hlog⟩
  · rw [hacc, lookup_of_same_keys hkeys hi, List.getElem?_set_ne (Ne.symm hij),
      List.getElem?_set_self i.isLt]
  · rw [hacc, lookup_of_same_keys hkeys hj, List.getElem?_set_self (by simp)]
  · simp [hacc]
  · intro n hn1 hn2
    rw [hacc, List.getElem?_set_ne (Ne.symm hn2), List.getElem?_set_ne (Ne.symm hn1)]

/-- With the identity for `fl`, `transfer_funds_fl` is `transfer_funds`. -/
theorem transfer_funds_fl_exact (fmt : Fmt) (env : Env) (accounts : List Account)
    (log : List Transaction) (from_account to_account : Int) (amount : ℚ) :
    transfer_funds_fl (fun q => q) fmt env accounts log from_account to_account amount
      = transfer_funds fmt env accounts log from_account to_account amount := rfl

/-- The success path of `transfer_funds_fl`. -/
theorem transfer_funds_fl_commit (fl : ℚ → ℚ) (fmt : Fmt) (env : Env) (accounts : List Account)
    (log : List Transaction) (from_account to_account : Int) (amount : ℚ)
    (i j : Fin accounts.length)
    (hi : find_account_offset accounts from_account = some i)
    (hj : find_account_offset accounts to_account = some j)
    (hpos : 0 < amount) (hopen : env.acct_open = true)
    (hl1 : env.lock1_ok = true) (hl2 : env.lock2_ok = true)
    (hfa : (accounts.get i).is_active ≠ 0) (hta : (accounts.get j).is_active ≠ 0)
    (hbal : amount ≤ (accounts.get i).balance) :
    let r := transfer_funds_fl fl fmt env accounts log from_account to_account amount
    r.ret = 0 ∧
    r.accounts = (accounts.set i.val
        { accounts.get i with balance := fl ((accounts.get i).balance - amount) }).set
      j.val { accounts.get j with balance := fl ((accounts.get j).balance + amount) } ∧
    r.log = (log_transaction env.recv
      (log_transaction env.sent log from_account TransactionType.TRANSFER_SENT amount
        (accounts.get i).balance (fl ((accounts.get i).balance - amount))).log
      to_account TransactionType.TRANSFER_RECEIVED amount
        (accounts.get j).balance (fl ((accounts.get j).balance + amount))).log := by
  have hk1 := find_account_offset_key accounts from_account i hi
  have hk2 := find_account_offset_key accounts to_account j hj
  simp only [transfer_funds_fl, hi, hj, hopen, hl1, hl2, not_le.mpr hpos, not_lt.mpr hbal, hfa,
    hta, if_false, or_self, hk1, hk2]
  simp

/-- C2 (as amended). Success postcondition: two different account numbers that
resolve to active records, a positive amount that the source balance covers,
the account file reachable, both range locks granted, and the log file
reachable at both `log_transaction` calls.  Then `transfer_funds` returns 0;
the source record is the old one with the balance `fl (old_from - amount)` and
the destination record the old one with the balance `fl (old_to + amount)`,
where `fl` is the rounding of `float` arithmetic (so `account_no` and
`is_active` are unchanged); every record at another position is unchanged; and
the log has gained exactly the `TRANSFER_SENT` entry of the source followed by
the `TRANSFER_RECEIVED` entry of the destination, each with the old balance and
the stored new balance. -/
theorem transfer_funds_success (fl : ℚ → ℚ) (fmt : Fmt) (env : Env) (accounts : List Account)
    (log : List Transaction) (from_account to_account : Int) (amount : ℚ) (fa ta : Account)
    (hne : from_account ≠ to_account)
    (hfrom : lookup accounts from_account = some fa)
    (hto : lookup accounts to_account = some ta)
    (hfa : fa.is_active ≠ 0) (hta : ta.is_active ≠ 0)
    (hpos : 0 < amount) (hbal : amount ≤ fa.balance)
    (hopen : env.acct_open = true) (hl1 : env.lock1_ok = true) (hl2 : env.lock2_ok = true)
    (hlog1 : env.sent.log_open = true) (hlog2 : env.recv.log_open = true) :
    let r := transfer_funds_fl fl fmt env accounts log from_account to_account amount
    r.ret = 0 ∧
    balance_of r.accounts from_account = some (fl (fa.balance - amount)) ∧
    balance_of r.accounts to_account = some (fl (ta.balance + amount)) ∧
    lookup r.accounts from_account = some { fa with balance := fl (fa.balance - amount) } ∧
    lookup r.accounts to_account = some { ta with balance := fl (ta.balance + amount) } ∧
    r.accounts.length = accounts.length ∧
    (∃ i j, find_account_offset accounts from_account = some i ∧
      find_account_offset accounts to_account = some j ∧
      ∀ n, n ≠ i.val → n ≠ j.val → r.accounts[n]? = accounts[n]?) ∧
    ∃ sent received : Transaction,
      r.log = log ++ [sent, received] ∧
      sent = { transactionID := get_next_transaction_id log
               accountID := from_account
               type := TransactionType.TRANSFER_SENT
               amount := amount
               oldBalance := fa.balance
               newBalance := fl (fa.balance - amount)
               timestamp := env.sent.now } ∧
      received = { transactionID := get_next_transaction_id (log ++ [sent])
                   accountID := to_account
                   type := TransactionType.TRANSFER_RECEIVED
                   amount := amount
                   oldBalance := ta.balance
                   newBalance := fl (ta.balance + amount)
                   timestamp := env.recv.now } := by
  obtain ⟨i, hi, rfl⟩ := lookup_eq_some.mp hfrom
  obtain ⟨j, hj, rfl⟩ := lookup_eq_some.mp hto
  have hk1 := find_account_offset_key accounts from_account i hi
  have hk2 := find_account_offset_key accounts to_account j hj
  have hij : i.val ≠ j.val := by
    intro h
    have : i = j := Fin.ext h
    subst this
    exact hne (hk1.symm.trans hk2)
  obtain ⟨h0, hacc, hlog⟩ := transfer_funds_fl_commit fl fmt env accounts log from_account
    to_account amount i j hi hj hpos hopen hl1 hl2 hfa hta hbal
  have hkeys := map_account_no_commit accounts i j (fl ((accounts.get i).balance - amount))
    (fl ((accounts.get j).balance + amount))
  have h1 : lookup (transfer_funds_fl fl fmt env accounts log from_account to_account
      amount).accounts from_account
        = some { accounts.get i with balance := fl ((accounts.get i).balance - amount) } := by
    rw [hacc, lookup_of_same_keys hkeys hi, List.getElem?_set_ne (Ne.symm hij),
      List.getElem?_set_self i.isLt]
  have h2 : lookup (transfer_funds_fl fl fmt env accounts log from_account to_account
      amount).accounts to_account
        = some { accounts.get j with balance := fl ((accounts.get j).balance + amount) } := by
    rw [hacc, lookup_of_same_keys hkeys hj, List.getElem?_set_self (by simp)]
  refine ⟨h0, ?_, ?_, h1, h2, ?_, ⟨i, j, hi, hj, ?_⟩, _, _, ?_, rfl, rfl⟩
  · simp [balance_of, h1]
  · simp [balance_of, h2]
  · simp [hacc]
  · intro n hn1 hn2
    rw [hacc, List.getElem?_set_ne (Ne.symm hn2), List.getElem?_set_ne (Ne.symm hn1)]
  · rw [hlog]
    simp [log_transaction, hlog1, hlog2]

/-- Scenario 1 of the specification, where the results are `float` values and
`fl` leaves them as they are, through `transfer_funds_success`. -/
theorem transfer_funds_success_witness :
    (100 : Int) ≠ 200 ∧
    lookup demoAccounts 100 = some ⟨100, 500, 1⟩ ∧
    lookup demoAccounts 200 = some ⟨200, 50, 1⟩ ∧
    (0 : ℚ) < 150 ∧ (150 : ℚ) ≤ 500 ∧
    demoEnv.acct_open = true ∧ demoEnv.lock1_ok = true ∧ demoEnv.lock2_ok = true ∧
    demoEnv.sent.log_open = true ∧ demoEnv.recv.log_open = true ∧
    (transfer_funds_fl (fun q => q) demoFmt demoEnv demoAccounts [] 100 200 150).ret = 0 ∧
    balance_of (transfer_funds_fl (fun q => q) demoFmt demoEnv demoAccounts [] 100 200
      150).accounts 100 = some (500 - 150) ∧
    balance_of (transfer_funds_fl (fun q => q) demoFmt demoEnv demoAccounts [] 100 200
      150).accounts 200 = some (50 + 150) :=
  have h := transfer_funds_success (fun q => q) demoFmt demoEnv demoAccounts [] 100 200 150
    ⟨100, 500, 1⟩ ⟨200, 50, 1⟩ (by decide) rfl rfl (by decide) (by decide) (by norm_num)
    (by norm_num) rfl rfl rfl rfl rfl
  ⟨by decide, rfl, rfl, by norm_num, by norm_num, rfl, rfl, rfl, rfl, rfl, h.1, h.2.1, h.2.2.1⟩

/-- C2, at scenario 1 of the specification when the log file does not open: two
different account numbers resolve to active records, the amount is positive and
covered, the account file opens and both range locks are granted;
`transfer_funds` returns 0 and moves the 150 (all values are `float` values, so
no rounding takes place), and the log has gained no entry, whatever the
rounding. -/
theorem transfer_funds_success_without_log :
    (100 : Int) ≠ 200 ∧
    lookup demoAccounts 100 = some ⟨100, 500, 1⟩ ∧
    lookup demoAccounts 200 = some ⟨200, 50, 1⟩ ∧
    (0 : ℚ) < 150 ∧ (150 : ℚ) ≤ 500 ∧
    logFileUnreachable.acct_open = true ∧
    logFileUnreachable.lock1_ok = true ∧ logFileUnreachable.lock2_ok = true ∧
    (transfer_funds demoFmt logFileUnreachable demoAccounts [] 100 200 150).ret = 0 ∧
    (transfer_funds demoFmt logFileUnreachable demoAccounts [] 100 200 150).accounts
      = [⟨100, 350, 1⟩, ⟨200, 200, 1⟩] ∧
    (transfer_funds demoFmt logFileUnreachable demoAccounts [] 100 200 150).log = [] ∧
    (∀ fl : ℚ → ℚ,
      (transfer_funds_fl fl demoFmt logFileUnreachable demoAccounts [] 100 200 150).ret = 0 ∧
      (transfer_funds_fl fl demoFmt logFileUnreachable demoAccounts [] 100 200 150).log = []) := by
  refine ⟨by decide, rfl, rfl, by norm_num, by norm_num, rfl, rfl, rfl, ?_, ?_, ?_, ?_⟩
  · norm_num [transfer_funds, find_account_offset, logFileUnreachable, demoAccounts]
  · norm_num [transfer_funds, find_account_offset, logFileUnreachable, demoAccounts]
  · norm_num [transfer_funds, find_account_offset, logFileUnreachable, logUnreachable,
      demoAccounts, log_transaction]
  · intro fl
    constructor
    · norm_num [transfer_funds_fl, find_account_offset, logFileUnreachable, demoAccounts]
    · norm_num [transfer_funds_fl, find_account_offset, logFileUnreachable, logUnreachable,
        demoAccounts, log_transaction]

/-! ## Every path of `transfer_funds` -/

/-- The reply and the return value of `transfer_funds` are those of the first
failing check; a rejected call returns `-1` and leaves both files as they
were; a call rejected for its amount issues no file event. -/
theorem transfer_funds_outcome (fmt : Fmt) (env : Env) (accounts : List Account)
    (log : List Transaction) (from_account to_account : Int) (amount : ℚ) :
    let r := transfer_funds fmt env accounts log from_account to_account amount
    let o := first_failing_check env accounts from_account to_account amount
    r.reply = o.message fmt from_account to_account amount ∧
    (r.ret = 0 ↔ o = Outcome.success) ∧
    (r.ret = -1 ↔ o ≠ Outcome.success) ∧
    (o ≠ Outcome.success → r.accounts = accounts ∧ r.log = log) ∧
    (amount ≤ 0 → r.trace = []) := by
  unfold transfer_funds first_failing_check lookup
  by_cases h1 : amount ≤ 0
  · simp [h1, Outcome.message]
  by_cases h2 : env.acct_open = false
  · simp [h1, h2, Outcome.message]
  cases hi : find_account_offset accounts from_account with
  | none => simp [h1, h2, Outcome.message]
  | some i =>
    cases hj : find_account_offset accounts to_account with
    | none => simp [h1, h2, Outcome.message]
    | some j =>
      by_cases h3 : env.lock1_ok = false
      · simp [h1, h2, h3, Outcome.message]
      by_cases h4 : env.lock2_ok = false
      · simp [h1, h2, h3, h4, Outcome.message]
      by_cases h5 : (accounts.get i).is_active = 0 ∨ (accounts.get j).is_active = 0
      · simp only [List.get_eq_getElem] at h5
        simp [h1, h2, h3, h4, h5, Outcome.message]
      by_cases h6 : (accounts.get i).balance < amount
      · simp only [List.get_eq_getElem] at h5 h6
        simp [h1, h2, h3, h4, h5, h6, Outcome.message]
      · simp only [List.get_eq_getElem] at h5 h6
        simp [h1, h2, h3, h4, h5, h6, Outcome.message]

theorem transfer_funds_nonneg (fmt : Fmt) (env : Env) (accounts : List Account)
    (log : List Transaction) (from_account to_account : Int) (amount : ℚ)
    (h : ∀ a ∈ accounts, 0 ≤ a.balance) :
    ∀ a ∈ (transfer_funds fmt env accounts log from_account to_account amount).accounts,
      0 ≤ a.balance := by
  unfold transfer_funds
  by_cases h1 : amount ≤ 0
  · simpa [h1] using h
  by_cases h2 : env.acct_open = false
  · simpa [h1, h2] using h
  cases hi : find_account_offset accounts from_account with
  | none => simpa [h1, h2] using h
  | some i =>
    cases hj : find_account_offset accounts to_account with
    | none => simpa [h1, h2] using h
    | some j =>
      by_cases h3 : env.lock1_ok = false
      · simpa [h1, h2, h3] using h
      by_cases h4 : env.lock2_ok = false
      · simpa [h1, h2, h3, h4] using h
      by_cases h5 : (accounts.get i).is_active = 0 ∨ (accounts.get j).is_active = 0
      · simp only [h1, h2, h3, h4, h5, if_true, if_false]
        exact h
      by_cases h6 : (accounts.get i).balance < amount
      · simp only [h1, h2, h3, h4, h5, h6, if_true, if_false]
        exact h
      · simp only [h1, h2, h3, h4, h5, h6, if_true, if_false]
        intro a ha
        have hpos : 0 < amount := not_le.mp h1
        rcases List.mem_or_eq_of_mem_set ha with ha | rfl
        · rcases List.mem_or_eq_of_mem_set ha with ha | rfl
          · exact h a ha
          · have := not_lt.mp h6
            simp only
            linarith
        · have := h (accounts.get j) (List.get_mem _ _ _)
          simp only
          linarith

/-- C3. Atomicity on rejection: when `transfer_funds` returns `-1`, whatever the
reason, the account file and the transaction log are what they were before the
call. -/
theorem transfer_funds_reject_unchanged (fmt : Fmt) (env : Env) (accounts : List Account)
    (log : List Transaction) (from_account to_account : Int) (amount : ℚ)
    (h : (transfer_funds fmt env accounts log from_account to_account amount).ret = -1) :
    (transfer_funds fmt env accounts log from_account to_account amount).accounts = accounts ∧
    (transfer_funds fmt env accounts log from_account to_account amount).log = log :=
  have hc := transfer_funds_outcome fmt env accounts log from_account to_account amount
  hc.2.2.2.1 (hc.2.2.1.mp h)

/-- Scenario 2 of the specification (insufficient funds), through
`transfer_funds_reject_unchanged`. -/
theorem transfer_funds_reject_unchanged_witness :
    (transfer_funds demoFmt demoEnv demoAccounts [] 100 200 600).ret = -1 ∧
    (transfer_funds demoFmt demoEnv demoAccounts [] 100 200 600).accounts = demoAccounts ∧
    (transfer_funds demoFmt demoEnv demoAccounts [] 100 200 600).log = [] :=
  have h : (transfer_funds demoFmt demoEnv demoAccounts [] 100 200 600).ret = -1 := by
    norm_num [transfer_funds, find_account_offset, demoEnv, demoAccounts]
  ⟨h, transfer_funds_reject_unchanged demoFmt demoEnv demoAccounts [] 100 200 600 h⟩

theorem rejection_messages_distinct (fmt : Fmt) (from_account to_account : Int) (amount : ℚ)
    (o₁ o₂ : Outcome) (h₁ : o₁ ≠ Outcome.success) (h₂ : o₂ ≠ Outcome.success)
    (h : o₁.message fmt from_account to_account amount
      = o₂.message fmt from_account to_account amount) : o₁ = o₂ := by
  cases o₁ <;> cases o₂ <;> first
    | rfl
    | exact absurd rfl h₁
    | exact absurd rfl h₂
    | (simp only [Outcome.message] at h
       exact absurd h (by decide))

theorem success_message_ne (fmt : Fmt) (from_account to_account : Int) (amount : ℚ)
    (o : Outcome) (h : o ≠ Outcome.success) :
    o.message fmt from_account to_account amount
      ≠ Outcome.success.message fmt from_account to_account amount := by
  intro heq
  have hd := congrArg String.data heq
  cases o <;> first
    | exact absurd rfl h
    | (simp only [Outcome.message, String.data_append] at hd
       have hh := congrArg List.head? hd
       simp at hh)

/-- Conservation for two different account numbers: after a call that returns
0 the two balances, read through their account numbers, add up to what they
added up to before. -/
theorem transfer_funds_conserves_distinct (fmt : Fmt) (env : Env) (accounts : List Account)
    (log : List Transaction) (from_account to_account : Int) (amount : ℚ) (fa ta : Account)
    (hne : from_account ≠ to_account)
    (hfrom : lookup accounts from_account = some fa)
    (hto : lookup accounts to_account = some ta)
    (hret : (transfer_funds fmt env accounts log from_account to_account amount).ret = 0) :
    ∃ b₁ b₂,
      balance_of (transfer_funds fmt env accounts log from_account to_account amount).accounts
        from_account = some b₁ ∧
      balance_of (transfer_funds fmt env accounts log from_account to_account amount).accounts
        to_account = some b₂ ∧
      b₁ + b₂ = fa.balance + ta.balance := by
  have hc := (transfer_funds_outcome fmt env accounts log from_account to_account amount).2.1.mp hret
  simp only [first_failing_check, hfrom, hto] at hc
  split_ifs at hc with h1 h2 h3 h4 h5
  have h3' := not_or.mp h3
  have h4' := not_or.mp h4
  obtain ⟨-, h6, h7, -⟩ := transfer_funds_commit_accounts fmt env accounts log
    from_account to_account amount fa ta hne hfrom hto h4'.1 h4'.2 (not_le.mp h1) (not_lt.mp h5)
    (by simpa using h2) (by simpa using h3'.1) (by simpa using h3'.2)
  exact ⟨fa.balance - amount, ta.balance + amount, by simp [balance_of, h6],
    by simp [balance_of, h7], by ring⟩

/-- C1, at a transfer from account 100 to itself: the call returns 0, the
balance of account 100 is 500 before and 650 after, so the sum of the balance
of the source and the balance of the destination goes from 1000 to 1300. -/
theorem transfer_funds_self_transfer :
    lookup demoAccounts 100 = some ⟨100, 500, 1⟩ ∧
    (transfer_funds demoFmt demoEnv demoAccounts [] 100 100 150).ret = 0 ∧
    balance_of demoAccounts 100 = some 500 ∧
    balance_of (transfer_funds demoFmt demoEnv demoAccounts [] 100 100 150).accounts 100
      = some 650 ∧
    (650 : ℚ) + 650 ≠ 500 + 500 := by
  refine ⟨rfl, ?_, rfl, ?_, by norm_num⟩
  · norm_num [transfer_funds, find_account_offset, demoEnv, demoAccounts]
  · norm_num [transfer_funds, find_account_offset, demoEnv, demoAccounts, balance_of, lookup]

/-- C4 (as amended). The reply of `transfer_funds` is the message of the first
failing check in the order: amount, account file, account numbers, range locks,
active flags, source balance; the call returns 0 exactly when none of the six
fails; a call rejected for its amount issues no file event; and different
outcomes have different messages. -/
theorem transfer_funds_first_failing_check (fmt : Fmt) (env : Env) (accounts : List Account)
    (log : List Transaction) (from_account to_account : Int) (amount : ℚ) :
    (transfer_funds fmt env accounts log from_account to_account amount).reply
      = (first_failing_check env accounts from_account to_account amount).message
          fmt from_account to_account amount ∧
    ((transfer_funds fmt env accounts log from_account to_account amount).ret = 0 ↔
      first_failing_check env accounts from_account to_account amount = Outcome.success) ∧
    ((transfer_funds fmt env accounts log from_account to_account amount).ret = -1 ↔
      first_failing_check env accounts from_account to_account amount ≠ Outcome.success) ∧
    (amount ≤ 0 →
      (transfer_funds fmt env accounts log from_account to_account amount).trace = []) ∧
    (∀ o₁ o₂ : Outcome,
      o₁.message fmt from_account to_account amount
        = o₂.message fmt from_account to_account amount → o₁ = o₂) := by
  have h := transfer_funds_outcome fmt env accounts log from_account to_account amount
  refine ⟨h.1, h.2.1, h.2.2.1, h.2.2.2.2, ?_⟩
  intro o₁ o₂ heq
  by_cases h₁ : o₁ = Outcome.success
  · by_cases h₂ : o₂ = Outcome.success
    · rw [h₁, h₂]
    · subst h₁
      exact absurd heq.symm (success_message_ne fmt from_account to_account amount o₂ h₂)
  · by_cases h₂ : o₂ = Outcome.success
    · subst h₂
      exact absurd heq (success_message_ne fmt from_account to_account amount o₁ h₁)
    · exact rejection_messages_distinct fmt from_account to_account amount o₁ o₂ h₁ h₂ heq

/-- C4, at a call whose first range lock is refused: the amount is positive,
the account file opens, both account numbers resolve, both records are active
and the source balance covers the amount, so none of the five listed checks
fails and the listed order gives success; the call returns `-1` with the
message of the lock failure. -/
theorem transfer_funds_lock_failure_outcome :
    ¬ ((150 : ℚ) ≤ 0) ∧
    firstLockFails.acct_open = true ∧
    (∃ fa ta : Account,
      lookup demoAccounts 100 = some fa ∧ lookup demoAccounts 200 = some ta ∧
      ¬ (fa.is_active = 0 ∨ ta.is_active = 0) ∧ ¬ (fa.balance < 150)) ∧
    claimed_check_order firstLockFails demoAccounts 100 200 150 = Outcome.success ∧
    (transfer_funds demoFmt firstLockFails demoAccounts [] 100 200 150).ret = -1 ∧
    (transfer_funds demoFmt firstLockFails demoAccounts [] 100 200 150).reply
      = "Error: Cannot lock accounts for transfer.\n" := by
  refine ⟨by norm_num, rfl, ⟨⟨100, 500, 1⟩, ⟨200, 50, 1⟩, rfl, rfl, by decide, by norm_num⟩,
    ?_, ?_, ?_⟩
  · norm_num [claimed_check_order, lookup, find_account_offset, firstLockFails, demoEnv,
      demoAccounts]
  · norm_num [transfer_funds, find_account_offset, firstLockFails, demoEnv, demoAccounts]
  · norm_num [transfer_funds, find_account_offset, firstLockFails, demoEnv, demoAccounts]

/-- C5. Non-negative balances: from a store in which every balance is `≥ 0`,
every store reached by a sequence of `transfer_funds` calls, whatever their
arguments, their outcomes and the answers of the system, has every balance
`≥ 0`; in particular the store after one call. -/
theorem transfer_funds_balances_nonneg (st : List Account × List Transaction)
    (calls : List TransferCall) (h : ∀ a ∈ st.1, 0 ≤ a.balance) :
    (∀ a ∈ (run_transfers st calls).1, 0 ≤ a.balance) ∧
    (∀ (fmt : Fmt) (env : Env) (from_account to_account : Int) (amount : ℚ),
      ∀ a ∈ (transfer_funds fmt env st.1 st.2 from_account to_account amount).accounts,
        0 ≤ a.balance) := by
  refine ⟨?_, fun fmt env f t amt => transfer_funds_nonneg fmt env st.1 st.2 f t amt h⟩
  induction calls generalizing st with
  | nil => simpa [run_transfers] using h
  | cons c rest ih =>
    have hstep := transfer_funds_nonneg c.fmt c.env st.1 st.2 c.from_account c.to_account
      c.amount h
    simpa [run_transfers] using ih _ hstep

/-- Two transfers on the accounts of scenario 1, the second one of the whole
balance, through `transfer_funds_balances_nonneg`. -/
theorem transfer_funds_balances_nonneg_witness :
    (∀ a ∈ demoAccounts, 0 ≤ a.balance) ∧
    (∀ a ∈ (run_transfers (demoAccounts, [])
        [⟨demoFmt, demoEnv, 100, 200, 150⟩, ⟨demoFmt, demoEnv, 200, 100, 200⟩]).1,
      0 ≤ a.balance) :=
  have h : ∀ a ∈ demoAccounts, 0 ≤ a.balance := by
    intro a ha
    simp only [demoAccounts, List.mem_cons, List.mem_singleton, List.not_mem_nil, or_false] at ha
    rcases ha with rfl | rfl <;> norm_num
  ⟨h, (transfer_funds_balances_nonneg (demoAccounts, []) _ h).1⟩

/-! ## Transaction ids -/

theorem foldl_max_id_ge (rest : List Transaction) (m : Int) :
    m ≤ rest.foldl (fun m x => max m x.transactionID) m ∧
    ∀ t ∈ rest, t.transactionID ≤ rest.foldl (fun m x => max m x.transactionID) m := by
  induction rest generalizing m with
  | nil => simp
  | cons t rest ih =>
    obtain ⟨h1, h2⟩ := ih (max m t.transactionID)
    refine ⟨le_trans (le_max_left _ _) h1, ?_⟩
    intro u hu
    rcases List.mem_cons.mp hu with rfl | hu
    · exact le_trans (le_max_right _ _) h1
    · exact h2 u hu

/-- The next id is greater than every id in the file. -/
theorem get_next_transaction_id_gt (log : List Transaction) :
    ∀ t ∈ log, t.transactionID < get_next_transaction_id log := by
  cases log with
  | nil => simp
  | cons t₀ rest =>
    intro t ht
    obtain ⟨h1, h2⟩ := foldl_max_id_ge rest t₀.transactionID
    simp only [get_next_transaction_id]
    rcases List.mem_cons.mp ht with rfl | ht
    · omega
    · have := h2 t ht
      omega

/-- After a record with the next id is appended, the next id is one more. -/
theorem get_next_transaction_id_append (log : List Transaction) (t : Transaction)
    (ht : t.transactionID = get_next_transaction_id log) :
    get_next_transaction_id (log ++ [t]) = get_next_transaction_id log + 1 := by
  cases log with
  | nil =>
    simp only [get_next_transaction_id] at ht
    simp [get_next_transaction_id, ht]
  | cons t₀ rest =>
    simp only [get_next_transaction_id] at ht
    simp only [List.cons_append, get_next_transaction_id, List.foldl_append, List.foldl_cons,
      List.foldl_nil, ht]
    rw [max_eq_right (by omega)]

theorem log_transaction_opened (e : LogEnv) (log : List Transaction) (accountID : Int)
    (type : TransactionType) (amount oldBalance newBalance : ℚ) (h : e.log_open = true) :
    (log_transaction e log accountID type amount oldBalance newBalance).log
      = log ++ [{ transactionID := get_next_transaction_id log
                  accountID := accountID
                  type := type
                  amount := amount
                  oldBalance := oldBalance
                  newBalance := newBalance
                  timestamp := e.now }] := by
  simp [log_transaction, h]

theorem log_transaction_not_opened (e : LogEnv) (log : List Transaction) (accountID : Int)
    (type : TransactionType) (amount oldBalance newBalance : ℚ) (h : e.log_open = false) :
    (log_transaction e log accountID type amount oldBalance newBalance).log = log := by
  simp [log_transaction, h]

/-- The ids in the file after a sequence of calls: those that were there,
followed by consecutive ids from the next free one, one for each call that has
the file open. -/
theorem run_log_calls_ids (calls : List LogCall) :
    ∀ log : List Transaction,
    (run_log_calls log calls).map (fun t => t.transactionID)
      = log.map (fun t => t.transactionID)
        ++ (List.range (calls.filter (fun c => c.env.log_open)).length).map
            (fun (k : Nat) => get_next_transaction_id log + (k : Int)) := by
  induction calls with
  | nil => intro log; simp [run_log_calls]
  | cons c rest ih =>
    intro log
    cases hc : c.env.log_open with
    | false =>
      have hstep := log_transaction_not_opened c.env log c.accountID c.type c.amount
        c.oldBalance c.newBalance hc
      have := ih log
      simp only [run_log_calls, List.foldl_cons] at this ⊢
      rw [hstep, this, List.filter_cons_of_neg (by simp [hc])]
    | true =>
      have hstep := log_transaction_opened c.env log c.accountID c.type c.amount
        c.oldBalance c.newBalance hc
      have := ih (log ++ [{ transactionID := get_next_transaction_id log
                            accountID := c.accountID
                            type := c.type
                            amount := c.amount
                            oldBalance := c.oldBalance
                            newBalance := c.newBalance
                            timestamp := c.env.now }])
      simp only [run_log_calls, List.foldl_cons] at this ⊢
      rw [hstep, this, get_next_transaction_id_append _ _ rfl,
        List.filter_cons_of_pos (by simp [hc])]
      simp only [List.map_append, List.map_cons, List.map_nil, List.append_assoc,
        List.length_cons, List.range_succ_eq_map, List.map_map, List.singleton_append,
        List.cons.injEq, List.append_cancel_left_eq]
      refine ⟨by simp, ?_⟩
      apply List.map_congr_left
      intro k _
      simp only [Function.comp, Nat.cast_succ]
      ring

/-- C8 (as amended). Sequential appends, with `get_next_transaction_id` as the
spec's `allocate_next_id`.  A call of `log_transaction` that opens the log file
appends exactly one record at the end of the log and leaves the earlier records
as they were; the record carries the arguments of the call and an id greater
than every id already in the log (a call whose `open` fails returns at once and
leaves the log as it is).  From an empty log, the ids in file order after any
sequence of calls are `1, 2, ..., m`, one for each call that opened the file;
so after `n` appends the log holds `n` records with the ids `1, 2, ..., n`. -/
theorem log_transaction_sequential_ids (calls : List LogCall) :
    (∀ (log : List Transaction) (c : LogCall), c.env.log_open = true →
      ∃ rec : Transaction,
        (log_transaction c.env log c.accountID c.type c.amount c.oldBalance c.newBalance).log
          = log ++ [rec] ∧
        rec.accountID = c.accountID ∧ rec.type = c.type ∧ rec.amount = c.amount ∧
        rec.oldBalance = c.oldBalance ∧ rec.newBalance = c.newBalance ∧
        rec.timestamp = c.env.now ∧
        rec.transactionID = get_next_transaction_id log ∧
        ∀ t ∈ log, t.transactionID < rec.transactionID) ∧
    (∀ (log : List Transaction) (c : LogCall), c.env.log_open = false →
      (log_transaction c.env log c.accountID c.type c.amount c.oldBalance c.newBalance).log
        = log) ∧
    (run_log_calls [] calls).map (fun t => t.transactionID)
      = (List.range (calls.filter (fun c => c.env.log_open)).length).map
          (fun (k : Nat) => (k : Int) + 1) ∧
    ((∀ c ∈ calls, c.env.log_open = true) →
      (run_log_calls [] calls).length = calls.length ∧
      (run_log_calls [] calls).map (fun t => t.transactionID)
        = (List.range calls.length).map (fun (k : Nat) => (k : Int) + 1)) := by
  have hids : (run_log_calls [] calls).map (fun t => t.transactionID)
      = (List.range (calls.filter (fun c => c.env.log_open)).length).map
          (fun (k : Nat) => (k : Int) + 1) := by
    rw [run_log_calls_ids calls []]
    simp only [List.map_nil, List.nil_append, get_next_transaction_id]
    apply List.map_congr_left
    intro k _
    ring
  refine ⟨?_, ?_, hids, ?_⟩
  · intro log c hc
    exact ⟨_, log_transaction_opened c.env log c.accountID c.type c.amount c.oldBalance
      c.newBalance hc, rfl, rfl, rfl, rfl, rfl, rfl, rfl, get_next_transaction_id_gt log⟩
  · intro log c hc
    exact log_transaction_not_opened c.env log c.accountID c.type c.amount c.oldBalance
      c.newBalance hc
  · intro hopen
    have hall : calls.filter (fun c => c.env.log_open) = calls := by
      rw [List.filter_eq_self]
      exact hopen
    rw [hall] at hids
    refine ⟨?_, hids⟩
    have := congrArg List.length hids
    simpa using this

/-- C8, at one call on an empty log when the log file does not open: the call
appends no record, and after one call the log holds no record. -/
theorem log_transaction_open_failure :
    logUnreachable.log_open = false ∧
    (log_transaction logUnreachable [] 1 TransactionType.DEPOSIT 10 0 10).log = [] ∧
    (run_log_calls [] [LogCall.mk logUnreachable 1 TransactionType.DEPOSIT 10 0 10]).length
      = 0 := by
  refine ⟨rfl, ?_, ?_⟩
  · simp [log_transaction, logUnreachable]
  · simp [run_log_calls, log_transaction, logUnreachable]

/-- Three deposits into an empty log, through `log_transaction_sequential_ids`. -/
theorem log_transaction_sequential_ids_witness :
    (∀ c ∈ List.replicate 3 (LogCall.mk demoLogEnv 1 TransactionType.DEPOSIT 10 0 10),
      c.env.log_open = true) ∧
    (run_log_calls [] (List.replicate 3
      (LogCall.mk demoLogEnv 1 TransactionType.DEPOSIT 10 0 10))).map
        (fun t => t.transactionID) = [1, 2, 3] :=
  have h : ∀ c ∈ List.replicate 3 (LogCall.mk demoLogEnv 1 TransactionType.DEPOSIT 10 0 10),
      c.env.log_open = true := by
    intro c hc
    rw [(List.mem_replicate.mp hc).2]
    rfl
  ⟨h, ((log_transaction_sequential_ids _).2.2.2 h).2⟩

/-! ## Lock requests -/

theorem account_lock_requests_log_transaction (e : LogEnv) (log : List Transaction)
    (accountID : Int) (type : TransactionType) (amount oldBalance newBalance : ℚ) :
    account_lock_requests
      (log_transaction e log accountID type amount oldBalance newBalance).trace = [] := by
  unfold log_transaction
  split_ifs <;> simp [account_lock_requests]

/-- The lock requests that `transfer_funds` makes on the account file. -/
theorem account_lock_requests_transfer (fmt : Fmt) (env : Env) (accounts : List Account)
    (log : List Transaction) (from_account to_account : Int) (amount : ℚ)
    (i j : Fin accounts.length) (hpos : 0 < amount) (hopen : env.acct_open = true)
    (hi : find_account_offset accounts from_account = some i)
    (hj : find_account_offset accounts to_account = some j) :
    account_lock_requests
        (transfer_funds fmt env accounts log from_account to_account amount).trace
      = if env.lock1_ok = true then
          [Event.lock FileId.accounts (min (i.val * sizeof_Account) (j.val * sizeof_Account))
             sizeof_Account true true,
           Event.lock FileId.accounts (max (i.val * sizeof_Account) (j.val * sizeof_Account))
             sizeof_Account true env.lock2_ok]
        else
          [Event.lock FileId.accounts (min (i.val * sizeof_Account) (j.val * sizeof_Account))
             sizeof_Account true false] := by
  have hmin : (if i.val * sizeof_Account < j.val * sizeof_Account then i.val * sizeof_Account
      else j.val * sizeof_Account) = min (i.val * sizeof_Account) (j.val * sizeof_Account) := by
    split_ifs with h
    · exact (min_eq_left (le_of_lt h)).symm
    · exact (min_eq_right (not_lt.mp h)).symm
  have hmax : (if i.val * sizeof_Account < j.val * sizeof_Account then j.val * sizeof_Account
      else i.val * sizeof_Account) = max (i.val * sizeof_Account) (j.val * sizeof_Account) := by
    split_ifs with h
    · exact (max_eq_right (le_of_lt h)).symm
    · exact (max_eq_left (not_lt.mp h)).symm
  have hlog := account_lock_requests_log_transaction
  unfold account_lock_requests at hlog ⊢
  unfold transfer_funds
  simp only [not_le.mpr hpos, hopen, hi, hj, hmin, hmax, if_false]
  by_cases h3 : env.lock1_ok = false
  · simp [h3]
  by_cases h4 : env.lock2_ok = false
  · simp [h3, h4]
  have h3' : env.lock1_ok = true := by simpa using h3
  have h4' : env.lock2_ok = true := by simpa using h4
  by_cases h5 : (accounts.get i).is_active = 0 ∨ (accounts.get j).is_active = 0
  · simp only [List.get_eq_getElem] at h5
    simp [h3', h4', h5]
  by_cases h6 : (accounts.get i).balance < amount
  · simp only [List.get_eq_getElem] at h5 h6
    simp [h3', h4', h5, h6]
  · simp only [List.get_eq_getElem] at h5 h6
    simp [h3', h4', h5, h6, hlog]

/-- No lock is requested when an account number does not resolve or the
account file does not open. -/
theorem account_lock_requests_none (fmt : Fmt) (env : Env) (accounts : List Account)
    (log : List Transaction) (from_account to_account : Int) (amount : ℚ)
    (h : env.acct_open = false ∨ find_account_offset accounts from_account = none ∨
      find_account_offset accounts to_account = none) :
    account_lock_requests
      (transfer_funds fmt env accounts log from_account to_account amount).trace = [] := by
  unfold transfer_funds account_lock_requests
  by_cases h1 : amount ≤ 0
  · simp [h1]
  by_cases h2 : env.acct_open = false
  · simp [h1, h2]
  rcases h with h | h | h
  · exact absurd h h2
  · simp [h1, h2, h]
  · cases hi : find_account_offset accounts from_account <;> simp [h1, h2, h]

/-- C9. Ascending lock order: with record offsets `from_offset` and `to_offset`
found, the first request of `transfer_funds` on the account file is an
exclusive lock of `sizeof(Account)` bytes at `min from_offset to_offset`; when
it is refused no other lock is requested, and when it is granted the second
request is an exclusive lock of `sizeof(Account)` bytes at
`max from_offset to_offset`.  So, on the same store and with the same answers
of the system, `transfer(A, B, x)` and `transfer(B, A, y)` make the same
sequence of lock requests on the account file. -/
theorem transfer_funds_lock_order (fmt₁ fmt₂ : Fmt) (env : Env) (accounts : List Account)
    (log₁ log₂ : List Transaction) (A B : Int) (x y : ℚ) (hx : 0 < x) (hy : 0 < y) :
    (∀ i j : Fin accounts.length, env.acct_open = true →
      find_account_offset accounts A = some i → find_account_offset accounts B = some j →
      account_lock_requests (transfer_funds fmt₁ env accounts log₁ A B x).trace
        = if env.lock1_ok = true then
            [Event.lock FileId.accounts (min (i.val * sizeof_Account) (j.val * sizeof_Account))
               sizeof_Account true true,
             Event.lock FileId.accounts (max (i.val * sizeof_Account) (j.val * sizeof_Account))
               sizeof_Account true env.lock2_ok]
          else
            [Event.lock FileId.accounts (min (i.val * sizeof_Account) (j.val * sizeof_Account))
               sizeof_Account true false]) ∧
    account_lock_requests (transfer_funds fmt₁ env accounts log₁ A B x).trace
      = account_lock_requests (transfer_funds fmt₂ env accounts log₂ B A y).trace := by
  refine ⟨fun i j hopen hi hj =>
    account_lock_requests_transfer fmt₁ env accounts log₁ A B x i j hx hopen hi hj, ?_⟩
  by_cases hopen : env.acct_open = true
  · cases hi : find_account_offset accounts A with
    | none =>
      rw [account_lock_requests_none _ _ _ _ _ _ _ (Or.inr (Or.inl hi)),
        account_lock_requests_none _ _ _ _ _ _ _ (Or.inr (Or.inr hi))]
    | some i =>
      cases hj : find_account_offset accounts B with
      | none =>
        rw [account_lock_requests_none _ _ _ _ _ _ _ (Or.inr (Or.inr hj)),
          account_lock_requests_none _ _ _ _ _ _ _ (Or.inr (Or.inl hj))]
      | some j =>
        rw [account_lock_requests_transfer fmt₁ env accounts log₁ A B x i j hx hopen hi hj,
          account_lock_requests_transfer fmt₂ env accounts log₂ B A y j i hy hopen hj hi,
          min_comm, max_comm]
  · have hclosed : env.acct_open = false := by simpa using hopen
    rw [account_lock_requests_none _ _ _ _ _ _ _ (Or.inl hclosed),
      account_lock_requests_none _ _ _ _ _ _ _ (Or.inl hclosed)]

/-- The two directions between accounts 100 and 200, through
`transfer_funds_lock_order`. -/
theorem transfer_funds_lock_order_witness :
    (0 : ℚ) < 150 ∧ (0 : ℚ) < 20 ∧
    account_lock_requests (transfer_funds demoFmt demoEnv demoAccounts [] 100 200 150).trace
      = account_lock_requests (transfer_funds demoFmt demoEnv demoAccounts [] 200 100 20).trace :=
  ⟨by norm_num, by norm_num,
    (transfer_funds_lock_order demoFmt demoFmt demoEnv demoAccounts [] [] 100 200 150 20
      (by norm_num) (by norm_num)).2⟩

/-- C10, at a call whose first range lock is granted and whose second is
refused: the trace is open, lock granted, lock refused, close; the granted lock
is still held when the descriptor is closed. -/
theorem transfer_funds_second_lock_failure_trace :
    (transfer_funds demoFmt secondLockFails demoAccounts [] 100 200 150).trace
      = [Event.opened FileId.accounts true,
         Event.lock FileId.accounts 0 12 true true,
         Event.lock FileId.accounts 12 12 true false,
         Event.close FileId.accounts] ∧
    released_before_close
      (transfer_funds demoFmt secondLockFails demoAccounts [] 100 200 150).trace [] = false := by
  have h : (transfer_funds demoFmt secondLockFails demoAccounts [] 100 200 150).trace
      = [Event.opened FileId.accounts true,
         Event.lock FileId.accounts 0 12 true true,
         Event.lock FileId.accounts 12 12 true false,
         Event.close FileId.accounts] := by
    norm_num [transfer_funds, find_account_offset, secondLockFails, demoEnv, demoAccounts,
      sizeof_Account]
  refine ⟨h, ?_⟩
  rw [h]
  decide

/-! ## The reply buffer of `view_transactions` -/

theorem left_justify_length (width : Nat) (s : String) :
    width ≤ (left_justify width s).length := by
  simp only [left_justify, String.length_append, String.length_mk, List.length_replicate]
  omega

/-- A row is at least as long as its field widths and separators. -/
theorem format_row_length (fmt : Fmt) (t : Transaction) : 60 ≤ (format_row fmt t).length := by
  have h1 := left_justify_length 5 (toString t.transactionID)
  have h2 := left_justify_length 12 (type_str t.type)
  have h3 := left_justify_length 9 (fmt.float2 t.amount)
  have h4 := left_justify_length 9 (fmt.float2 t.oldBalance)
  have h5 := left_justify_length 9 (fmt.float2 t.newBalance)
  have h6 : (" | " : String).length = 3 := by decide
  have h7 : ("\n" : String).length = 1 := by decide
  simp only [format_row, String.length_append, h6, h7]
  omega

theorem concat_lines_length_ge (rows : List String) (k : Nat) (h : ∀ r ∈ rows, k ≤ r.length) :
    k * rows.length ≤ (concat_lines rows).length := by
  induction rows with
  | nil => simp [concat_lines]
  | cons r rest ih =>
    have h1 := h r (List.mem_cons_self _ _)
    have h2 := ih (fun r' hr => h r' (List.mem_cons_of_mem _ hr))
    simp only [concat_lines, String.length_append, List.length_cons, Nat.mul_succ]
    omega

theorem matching_rows_cons (fmt : Fmt) (account_no : Int) (t : Transaction)
    (rest : List Transaction) :
    matching_rows fmt account_no (t :: rest)
      = if t.accountID = account_no then format_row fmt t :: matching_rows fmt account_no rest
        else matching_rows fmt account_no rest := by
  by_cases ht : t.accountID = account_no <;> simp [matching_rows, ht]

/-- Once the buffer is overrun it stays so. -/
theorem view_loop_none (fmt : Fmt) (account_no : Int) (log : List Transaction) :
    ∀ found : Bool, view_loop fmt account_no log (none, found)
      = (none, found || !(matching_rows fmt account_no log).isEmpty) := by
  induction log with
  | nil => intro found; simp [view_loop, matching_rows]
  | cons t rest ih =>
    intro found
    by_cases ht : t.accountID = account_no
    · simp [view_loop, strcat, ht, ih, matching_rows_cons]
    · simp [view_loop, ht, ih, matching_rows_cons]

/-- The loop of `view_transactions` from a buffer that holds a string: the
buffer receives the matching rows in the order of the log when they fit with
the terminating zero, and is overrun otherwise; `found` is set when a row
matches. -/
theorem view_loop_some (fmt : Fmt) (account_no : Int) (log : List Transaction) :
    ∀ (b : String) (found : Bool), b.length + 1 ≤ buffer_size →
    view_loop fmt account_no log (some b, found)
      = (if b.length + (concat_lines (matching_rows fmt account_no log)).length + 1 ≤ buffer_size
          then some (b ++ concat_lines (matching_rows fmt account_no log)) else none,
         found || !(matching_rows fmt account_no log).isEmpty) := by
  induction log with
  | nil =>
    intro b found hb
    simp [view_loop, matching_rows, concat_lines, hb]
  | cons t rest ih =>
    intro b found hb
    by_cases ht : t.accountID = account_no
    · simp only [view_loop, ht, if_true, matching_rows_cons, concat_lines, String.length_append]
      by_cases hfit : b.length + (format_row fmt t).length + 1 ≤ buffer_size
      · simp only [strcat, hfit, if_true]
        rw [ih (b ++ format_row fmt t) true (by simpa [String.length_append] using hfit)]
        simp [String.length_append, String.append_assoc, Nat.add_assoc]
      · simp only [strcat, hfit, if_false]
        rw [view_loop_none]
        have hno : ¬ (b.length + ((format_row fmt t).length
            + (concat_lines (matching_rows fmt account_no rest)).length) + 1 ≤ buffer_size) := by
          omega
        simp [hno]
    · simp only [view_loop, ht, if_false, matching_rows_cons]
      exact ih b found hb

theorem strcat_ite (cap : Nat) (a s : String) :
    strcat cap (if a.length + 1 ≤ cap then some a else none) s
      = if (a ++ s).length + 1 ≤ cap then some (a ++ s) else none := by
  rw [String.length_append]
  by_cases h : a.length + 1 ≤ cap
  · simp [strcat, h]
  · have h' : ¬ (a.length + s.length + 1 ≤ cap) := by omega
    simp [strcat, h, h']

theorem view_header_eq (account_no : Int) :
    view_header account_no
      = if (header_text account_no).length + 1 ≤ buffer_size then some (header_text account_no)
        else none := by
  have h1 : ∀ s : String, strcat buffer_size (some "") s
      = if s.length + 1 ≤ buffer_size then some s else none := by
    intro s
    have h0 : ("" : String).length = 0 := rfl
    simp [strcat, h0]
  simp only [view_header, header_text, h1, strcat_ite]

/-- The reply of `view_transactions` when the log file opens: the text that the
specification asks for when it fits `buffer` with its terminating zero; the
buffer is overrun otherwise. -/
theorem view_transactions_reply (fmt : Fmt) (e : ViewEnv) (log : List Transaction)
    (account_no : Int) (hopen : e.log_open = true) :
    (view_transactions fmt e log account_no).reply
      = if (expected_view fmt log account_no).length + 1 ≤ buffer_size
        then some (expected_view fmt log account_no) else none := by
  simp only [view_transactions, hopen, Bool.true_eq_false, if_false, view_header_eq, expected_view]
  by_cases hh : (header_text account_no).length + 1 ≤ buffer_size
  · simp only [hh, if_true, view_loop_some fmt account_no log _ false hh, Bool.false_or]
    cases hrows : (matching_rows fmt account_no log).isEmpty
    · simp [String.length_append]
    · have : matching_rows fmt account_no log = [] := List.isEmpty_iff.mp hrows
      simp [this, concat_lines, strcat, hh, String.length_append]
  · have hno : ∀ s : String,
        ¬ ((header_text account_no ++ s).length + 1 ≤ buffer_size) := by
      intro s
      rw [String.length_append]
      omega
    simp only [hh, if_false, view_loop_none, hno, Bool.false_or]
    cases (matching_rows fmt account_no log).isEmpty <;> simp [strcat]

/-- A reply of `view_transactions` that did not overrun the buffer is the text
that the specification asks for. -/
theorem view_transactions_reply_some (fmt : Fmt) (e : ViewEnv) (log : List Transaction)
    (account_no : Int) (out : String) (hopen : e.log_open = true)
    (h : (view_transactions fmt e log account_no).reply = some out) :
    out = expected_view fmt log account_no := by
  rw [view_transactions_reply fmt e log account_no hopen] at h
  split_ifs at h
  exact (Option.some.inj h).symm

/-- Every entry of `longLog` is an entry of account 1. -/
theorem longLog_rows (fmt : Fmt) : (matching_rows fmt 1 longLog).length = 140 := by
  have hall : longLog.filter (fun t => t.accountID = 1) = longLog := by
    rw [List.filter_eq_self]
    intro t ht
    simp only [longLog, List.mem_map] at ht
    obtain ⟨k, -, rfl⟩ := ht
    simp
  rw [matching_rows, List.length_map, hall]
  simp [longLog]

/-- C6, at the log of 140 deposits into account 1: the 140 entries all match,
the rows do not fit `buffer[8192]` whatever the renderings of the amounts and
of the time, and `view_transactions(1)` overruns the buffer instead of replying
with the header and the 140 rows. -/
theorem view_transactions_long_log (fmt : Fmt) (lock_ok : Bool) :
    longLog.length = 140 ∧
    (∀ t ∈ longLog, t.accountID = 1) ∧
    buffer_size < (expected_view fmt longLog 1).length ∧
    (view_transactions fmt ⟨true, lock_ok⟩ longLog 1).reply = none := by
  have hrows := longLog_rows fmt
  have hlen : 60 * (matching_rows fmt 1 longLog).length
      ≤ (concat_lines (matching_rows fmt 1 longLog)).length := by
    apply concat_lines_length_ge
    intro r hr
    simp only [matching_rows, List.mem_map] at hr
    obtain ⟨t, -, rfl⟩ := hr
    exact format_row_length fmt t
  have hne : (matching_rows fmt 1 longLog).isEmpty = false := by
    cases h : matching_rows fmt 1 longLog with
    | nil => simp [h] at hrows
    | cons _ _ => rfl
  have hbig : buffer_size < (expected_view fmt longLog 1).length := by
    simp only [expected_view, hne, String.length_append, buffer_size]
    simp only [Bool.false_eq_true, if_false]
    omega
  refine ⟨by simp [longLog], ?_, hbig, ?_⟩
  · intro t ht
    simp only [longLog, List.mem_map] at ht
    obtain ⟨k, -, rfl⟩ := ht
    rfl
  · rw [view_transactions_reply fmt _ longLog 1 rfl, if_neg (by omega)]

/-- C7, at the log written by the transfer of scenario 1: the `if` chain of
`view_transactions` names `DEPOSIT`, `WITHDRAWAL` and `LOAN_DEPOSIT` only, so
the `TRANSFER_SENT` entry of account 100 and the `TRANSFER_RECEIVED` entry of
account 200 are both shown with the type name `UNKNOWN`. -/
theorem view_transactions_transfer_type_names :
    (transfer_funds demoFmt demoEnv demoAccounts [] 100 200 150).log = demoTransferLog ∧
    type_str TransactionType.TRANSFER_SENT = "UNKNOWN" ∧
    type_str TransactionType.TRANSFER_RECEIVED = "UNKNOWN" ∧
    (view_transactions demoFmt ⟨true, true⟩ demoTransferLog 100).reply
      = some ("\n--- Transaction History for Account 100 ---\n"
          ++ "ID    | Type         | Amount   | Old Bal  | New Bal  | Date & Time\n"
          ++ "----------------------------------------------------------------------------------\n"
          ++ "1     | UNKNOWN      | 150.00    | 500.00    | 350.00    | 1700000000\n") ∧
    (view_transactions demoFmt ⟨true, true⟩ demoTransferLog 200).reply
      = some ("\n--- Transaction History for Account 200 ---\n"
          ++ "ID    | Type         | Amount   | Old Bal  | New Bal  | Date & Time\n"
          ++ "----------------------------------------------------------------------------------\n"
          ++ "2     | UNKNOWN      | 150.00    | 50.00     | 200.00    | 1700000000\n") := by
  refine ⟨?_, by decide, by decide, by rfl, by rfl⟩
  norm_num [transfer_funds, find_account_offset, demoEnv, demoAccounts, demoLogEnv,
    log_transaction, get_next_transaction_id, demoTransferLog]

/-! ## Release of locks before `close` -/

theorem released_opened (f : FileId) (ok : Bool) (rest : List Event)
    (held : List (FileId × Nat × Nat)) :
    released_before_close (Event.opened f ok :: rest) held = released_before_close rest held := by
  simp [released_before_close]

theorem released_read (f : FileId) (k : Nat) (rest : List Event)
    (held : List (FileId × Nat × Nat)) :
    released_before_close (Event.read f k :: rest) held = released_before_close rest held := by
  simp [released_before_close]

theorem released_write (f : FileId) (k : Nat) (rest : List Event)
    (held : List (FileId × Nat × Nat)) :
    released_before_close (Event.write f k :: rest) held = released_before_close rest held := by
  simp [released_before_close]

theorem released_lock_granted (f : FileId) (start len : Nat) (x : Bool) (rest : List Event)
    (held : List (FileId × Nat × Nat)) :
    released_before_close (Event.lock f start len x true :: rest) held
      = released_before_close rest ((f, start, len) :: held) := by
  simp [released_before_close]

theorem released_lock_refused (f : FileId) (start len : Nat) (x : Bool) (rest : List Event)
    (held : List (FileId × Nat × Nat)) :
    released_before_close (Event.lock f start len x false :: rest) held
      = released_before_close rest held := by
  simp [released_before_close]

theorem released_unlock (f : FileId) (start len : Nat) (rest : List Event)
    (held : List (FileId × Nat × Nat)) :
    released_before_close (Event.unlock f start len :: rest) held
      = released_before_close rest (held.filter (fun h => h ≠ (f, start, len))) := by
  simp [released_before_close]

theorem released_close (f : FileId) (rest : List Event) (held : List (FileId × Nat × Nat)) :
    released_before_close (Event.close f :: rest) held
      = (!(held.any (fun h => h.1 = f)) && released_before_close rest held) := by
  simp [released_before_close]

theorem released_before_close_reads (f : FileId) (offsets : List Nat) (rest : List Event)
    (held : List (FileId × Nat × Nat)) :
    released_before_close
        (offsets.map (fun k => Event.read f (k * sizeof_Transaction)) ++ rest) held
      = released_before_close rest held := by
  induction offsets with
  | nil => rfl
  | cons k ks ih => simpa [released_read] using ih

/-- The events of `log_transaction` inside a longer trace, while only ranges of
the account file are held: its lock is released before its `close`, and the
ranges held are the same afterwards. -/
theorem released_before_close_log_transaction (e : LogEnv) (log : List Transaction)
    (accountID : Int) (type : TransactionType) (amount oldBalance newBalance : ℚ)
    (rest : List Event) (held : List (FileId × Nat × Nat))
    (hheld : ∀ h ∈ held, h.1 = FileId.accounts) :
    released_before_close
        ((log_transaction e log accountID type amount oldBalance newBalance).trace ++ rest) held
      = released_before_close rest held := by
  have hfilter : held.filter (fun h => h ≠ (FileId.transactions, 0, 0)) = held := by
    rw [List.filter_eq_self]
    intro h hh
    have := hheld h hh
    rcases h with ⟨f, a, b⟩
    simp only at this
    simp [this]
  have hany : held.any (fun h => h.1 = FileId.transactions) = false := by
    rw [List.any_eq_false]
    intro h hh
    simp [hheld h hh]
  have hcons : ((FileId.transactions, 0, 0) :: held).filter
      (fun h => h ≠ (FileId.transactions, 0, 0)) = held := by
    rw [List.filter_cons_of_neg (by simp), hfilter]
  unfold log_transaction
  by_cases h1 : e.log_open = false
  · simp only [h1, if_true, List.cons_append, List.nil_append, released_opened]
  · cases h2 : e.lock_ok
    · simp only [h1, h2, Bool.true_eq_false, if_false, List.cons_append, List.nil_append,
        released_opened, released_lock_refused, released_write, released_unlock, released_close, hfilter, hany,
        Bool.not_false, Bool.true_and]
    · simp only [h1, h2, Bool.true_eq_false, if_false, List.cons_append, List.nil_append,
        released_opened, released_lock_granted, released_write, released_unlock, released_close, hcons, hany,
        Bool.not_false, Bool.true_and]

/-- In `log_transaction` no path closes the file with a granted lock held. -/
theorem log_transaction_releases (e : LogEnv) (log : List Transaction)
    (accountID : Int) (type : TransactionType) (amount oldBalance newBalance : ℚ) :
    released_before_close
      (log_transaction e log accountID type amount oldBalance newBalance).trace [] = true := by
  have h := released_before_close_log_transaction e log accountID type amount oldBalance
    newBalance [] [] (by simp)
  simpa [released_before_close] using h

/-- In `view_transactions` no path closes the file with a granted lock held. -/
theorem view_transactions_releases (fmt : Fmt) (e : ViewEnv) (log : List Transaction)
    (account_no : Int) :
    released_before_close (view_transactions fmt e log account_no).trace [] = true := by
  unfold view_transactions
  by_cases h1 : e.log_open = false
  · simp [h1, released_before_close]
  · cases h2 : e.lock_ok
    · simp only [h1, Bool.true_eq_false, if_false, List.cons_append, List.nil_append,
        List.append_assoc, released_opened, released_lock_refused]
      rw [released_before_close_reads]
      rfl
    · simp only [h1, Bool.true_eq_false, if_false, List.cons_append, List.nil_append,
        List.append_assoc, released_opened, released_lock_granted]
      rw [released_before_close_reads]
      rfl

/-- In `transfer_funds` every path but one releases the granted locks before
`close`: the exception is a granted first lock followed by a refused second
lock. -/
theorem transfer_funds_releases (fmt : Fmt) (env : Env) (accounts : List Account)
    (log : List Transaction) (from_account to_account : Int) (amount : ℚ)
    (h : env.lock1_ok = true → env.lock2_ok = true) :
    released_before_close
      (transfer_funds fmt env accounts log from_account to_account amount).trace [] = true := by
  unfold transfer_funds
  by_cases h1 : amount ≤ 0
  · simp [h1, released_before_close]
  by_cases h2 : env.acct_open = false
  · simp [h1, h2, released_before_close]
  cases hi : find_account_offset accounts from_account with
  | none => simp [h1, h2, released_before_close]
  | some i =>
    cases hj : find_account_offset accounts to_account with
    | none => simp [h1, h2, released_before_close]
    | some j =>
      by_cases h3 : env.lock1_ok = false
      · simp [h1, h2, h3, released_before_close]
      have h3' : env.lock1_ok = true := by simpa using h3
      have h4' : env.lock2_ok = true := h h3'
      generalize hl1 : (if i.val * sizeof_Account < j.val * sizeof_Account
        then i.val * sizeof_Account else j.val * sizeof_Account) = l1
      generalize hl2 : (if i.val * sizeof_Account < j.val * sizeof_Account
        then j.val * sizeof_Account else i.val * sizeof_Account) = l2
      have hrelease : released_before_close
          [Event.unlock FileId.accounts l1 sizeof_Account,
           Event.unlock FileId.accounts l2 sizeof_Account,
           Event.close FileId.accounts]
          [(FileId.accounts, l2, sizeof_Account), (FileId.accounts, l1, sizeof_Account)]
            = true := by
        by_cases hl : l2 = l1 <;> simp [released_before_close, List.filter, hl]
      have hheld : ∀ h ∈ [(FileId.accounts, l2, sizeof_Account),
          (FileId.accounts, l1, sizeof_Account)], h.1 = FileId.accounts := by
        intro h hh
        simp only [List.mem_cons, List.mem_singleton, List.not_mem_nil, or_false] at hh
        rcases hh with rfl | rfl <;> rfl
      by_cases h5 : (accounts.get i).is_active = 0 ∨ (accounts.get j).is_active = 0
      · simp only [h1, h2, h3', h4', h5, hl1, hl2, if_true, if_false, Bool.true_eq_false,
          List.cons_append, List.nil_append, released_opened, released_lock_granted,
          released_read]
        exact hrelease
      by_cases h6 : (accounts.get i).balance < amount
      · simp only [h1, h2, h3', h4', h5, h6, hl1, hl2, if_true, if_false, Bool.true_eq_false,
          List.cons_append, List.nil_append, released_opened, released_lock_granted,
          released_read]
        exact hrelease
      · simp only [h1, h2, h3', h4', h5, h6, hl1, hl2, if_true, if_false, Bool.true_eq_false,
          List.cons_append, List.nil_append, List.append_assoc, released_opened,
          released_lock_granted, released_read, released_write]
        rw [released_before_close_log_transaction _ _ _ _ _ _ _ _ _ hheld,
          released_before_close_log_transaction _ _ _ _ _ _ _ _ _ hheld]
        exact hrelease

end Bank
